import Mathlib

/-!
# Verification of the IMP Recruitment System stage-transition engine

Shallow embedding of the recruitment system's pipeline/stage state machine,
interview outcome synchronisation, bulk interview scheduling and document
completeness checking, together with proofs of the specified properties.

The client-side behaviour is embedded from
`recruitment_system/public/js/job_applicant.js` and
`recruitment_system/recruitment_system/doctype/applicant/applicant.js`.
Server-side methods that are only declared (in
`recruitment_system/recruitment_system/interview/README.md`) are modelled
from the specification, and are marked as such in their doc comments.
-/

namespace RecruitmentSystem

/-- A Pipeline Stage: belongs to exactly one Pipeline (referenced by name),
has a name and an ordinal position.  The pipeline's entry stage is the one
of lowest ordinal. -/
structure Stage where
  name : String
  pipeline : String
  ordinal : Nat
deriving DecidableEq, Repr

/-- The Pipeline/Stage registry: the set of known Pipeline names together
with all Stage records.  Immutable reference data. -/
structure Registry where
  pipelines : List String
  stages : List Stage
deriving DecidableEq, Repr

/-- All stages belonging to a pipeline (the Link-field filter
`{ pipeline: frm.doc.pipeline }` in `job_applicant.js`). -/
def stagesOf (reg : Registry) (p : String) : List Stage :=
  reg.stages.filter (fun s => decide (s.pipeline = p))

/-- Whether a pipeline name is known to the registry. -/
def pipelineExists (reg : Registry) (p : String) : Bool :=
  decide (p ∈ reg.pipelines)

/-- The stage of lowest ordinal in a list (ties resolved towards the head,
matching a `ORDER BY ordinal ASC LIMIT 1` lookup). -/
def minByOrdinal : List Stage → Option Stage
  | [] => none
  | s :: rest =>
    match minByOrdinal rest with
    | none => some s
    | some t => if s.ordinal ≤ t.ordinal then some s else some t

/-- Modelled from the spec: the server method
`job_applicant.get_first_stage_for_pipeline` (not under src/) returns the
pipeline's entry stage, i.e. its lowest-ordinal stage, or nothing when the
pipeline has no stages. -/
def firstStage (reg : Registry) (p : String) : Option Stage :=
  minByOrdinal (stagesOf reg p)

/-- Look up a stage by name within one pipeline. -/
def stageByName (reg : Registry) (p n : String) : Option Stage :=
  (stagesOf reg p).find? (fun s => decide (s.name = n))

/-- The mutable pipeline state of a Job Applicant tracking record:
`pipeline` (nullable Pipeline reference) and `current_stage` (nullable
Stage reference). -/
structure JobApplicant where
  pipeline : Option String
  current_stage : Option Stage
deriving DecidableEq, Repr

/-- Trigger events of the Stage Transition Engine. -/
inductive TransitionEvent where
  | assignPipeline (p : String)
  | clearPipeline
  | moveToStage (n : String)
  | readyForPipelineToggledOn
  | readyForPipelineToggledOff
deriving DecidableEq, Repr

/-- Rejection reasons of the Stage Transition Engine. -/
inductive TransitionError where
  | pipelineNotFound
  | stageNotInPipeline
deriving DecidableEq, Repr

/-- Modelled from the spec: the server method
`job_applicant.get_initial_pipeline_and_stage` (not under src/) returns the
pipeline named "Interviews" together with its first stage, or nothing when
that pipeline or its stages are missing ("No pipeline for Job Applicant or
no stages found"). -/
def initialPipelineAndStage (reg : Registry) : Option (String × Stage) :=
  if pipelineExists reg "Interviews" then
    (firstStage reg "Interviews").map (fun s => ("Interviews", s))
  else none

/-- The Stage Transition Engine.  Pipeline (re)assignment and the
`ready_for_pipeline` toggles follow the `pipeline` and `ready_for_pipeline`
handlers of `public/js/job_applicant.js`: assigning a pipeline sets
`current_stage` to the first stage of the new pipeline (or clears it when
none exists), clearing the pipeline clears the stage.  `moveToStage` is
modelled from the spec: the stage is looked up within the applicant's
current pipeline and the move fails with `stageNotInPipeline` when it does
not belong to it (the Link-field filter / server validation). -/
def transition (reg : Registry) (ja : JobApplicant) :
    TransitionEvent → Except TransitionError JobApplicant
  | .assignPipeline p =>
    if pipelineExists reg p then
      .ok { pipeline := some p, current_stage := firstStage reg p }
    else
      .error .pipelineNotFound
  | .clearPipeline => .ok { pipeline := none, current_stage := none }
  | .moveToStage n =>
    match ja.pipeline with
    | none => .error .stageNotInPipeline
    | some p =>
      match stageByName reg p n with
      | none => .error .stageNotInPipeline
      | some s => .ok { ja with current_stage := some s }
  | .readyForPipelineToggledOn =>
    match initialPipelineAndStage reg with
    | some ps => .ok { pipeline := some ps.1, current_stage := some ps.2 }
    | none => .ok ja
  | .readyForPipelineToggledOff => .ok { pipeline := none, current_stage := none }

/-- Apply one event; a rejected transition leaves the record unchanged. -/
def applyEvent (reg : Registry) (ja : JobApplicant) (e : TransitionEvent) :
    JobApplicant :=
  match transition reg ja e with
  | .ok ja2 => ja2
  | .error _ => ja

/-- Apply a sequence of events, each rejected transition leaving the record
unchanged. -/
def runEvents (reg : Registry) (ja : JobApplicant) (es : List TransitionEvent) :
    JobApplicant :=
  es.foldl (applyEvent reg) ja

/-- The stage/pipeline invariant of a Job Applicant: `current_stage` is
null, or the pipeline is set and the stage belongs to it. -/
def stageInvB (reg : Registry) (ja : JobApplicant) : Bool :=
  match ja.current_stage with
  | none => true
  | some s =>
    match ja.pipeline with
    | none => false
    | some p => decide (s ∈ stagesOf reg p)

theorem minByOrdinal_mem {l : List Stage} {s : Stage}
    (h : minByOrdinal l = some s) : s ∈ l := by
  induction l with
  | nil => simp [minByOrdinal] at h
  | cons a rest ih =>
    simp only [minByOrdinal] at h
    cases hrec : minByOrdinal rest with
    | none =>
      rw [hrec] at h
      simp only [Option.some.injEq] at h
      simp [← h]
    | some t =>
      rw [hrec] at h
      by_cases hle : a.ordinal ≤ t.ordinal
      · simp only [hle, if_pos] at h
        simp only [Option.some.injEq] at h
        simp [← h]
      · simp only [hle, if_neg, not_false_iff] at h
        simp only [Option.some.injEq] at h
        subst h
        exact List.mem_cons_of_mem _ (ih hrec)

theorem minByOrdinal_eq_none {l : List Stage}
    (h : minByOrdinal l = none) : l = [] := by
  cases l with
  | nil => rfl
  | cons a rest =>
    exfalso
    simp only [minByOrdinal] at h
    cases hrec : minByOrdinal rest with
    | none => rw [hrec] at h; simp at h
    | some t =>
      rw [hrec] at h
      by_cases hle : a.ordinal ≤ t.ordinal <;> simp [hle] at h

theorem minByOrdinal_le : ∀ (l : List Stage) (s : Stage),
    minByOrdinal l = some s → ∀ t ∈ l, s.ordinal ≤ t.ordinal := by
  intro l
  induction l with
  | nil => intro s h; simp [minByOrdinal] at h
  | cons a rest ih =>
    intro s h t ht
    simp only [minByOrdinal] at h
    cases hrec : minByOrdinal rest with
    | none =>
      rw [hrec] at h
      simp only [Option.some.injEq] at h
      subst h
      have hrest : rest = [] := minByOrdinal_eq_none hrec
      subst hrest
      rcases List.mem_cons.mp ht with h1 | h1
      · subst h1; exact le_refl _
      · simp at h1
    | some m =>
      rw [hrec] at h
      by_cases hle : a.ordinal ≤ m.ordinal
      · simp only [hle, if_pos, Option.some.injEq] at h
        subst h
        rcases List.mem_cons.mp ht with h1 | h1
        · subst h1; exact le_refl _
        · exact le_trans hle (ih m hrec t h1)
      · simp only [hle, if_neg, not_false_iff, Option.some.injEq] at h
        subst h
        rcases List.mem_cons.mp ht with h1 | h1
        · subst h1; omega
        · exact ih _ hrec t h1

theorem firstStage_mem {reg : Registry} {p : String} {s : Stage}
    (h : firstStage reg p = some s) : s ∈ stagesOf reg p :=
  minByOrdinal_mem h

theorem stageByName_mem {reg : Registry} {p n : String} {s : Stage}
    (h : stageByName reg p n = some s) : s ∈ stagesOf reg p :=
  List.mem_of_find?_eq_some h

theorem initialPipelineAndStage_eq {reg : Registry} {ps : String × Stage}
    (h : initialPipelineAndStage reg = some ps) :
    pipelineExists reg "Interviews" = true ∧ ps.1 = "Interviews" ∧
      firstStage reg "Interviews" = some ps.2 := by
  unfold initialPipelineAndStage at h
  by_cases hex : pipelineExists reg "Interviews" = true
  · rw [if_pos hex] at h
    rw [Option.map_eq_some'] at h
    obtain ⟨s, hfs, hps⟩ := h
    subst hps
    exact ⟨hex, rfl, hfs⟩
  · rw [if_neg hex] at h
    simp at h

theorem stageInv_applyEvent (reg : Registry) (ja : JobApplicant)
    (e : TransitionEvent) (h : stageInvB reg ja = true) :
    stageInvB reg (applyEvent reg ja e) = true := by
  cases e with
  | assignPipeline p =>
    by_cases hex : pipelineExists reg p = true
    · cases hfs : firstStage reg p with
      | none => simp [applyEvent, transition, hex, hfs, stageInvB]
      | some s =>
        simp only [applyEvent, transition, hex, if_pos, hfs]
        simp only [stageInvB, decide_eq_true_eq]
        exact firstStage_mem hfs
    · simp [applyEvent, transition, hex, h]
  | clearPipeline => simp [applyEvent, transition, stageInvB]
  | moveToStage n =>
    cases hp : ja.pipeline with
    | none => simp [applyEvent, transition, hp, h]
    | some p =>
      cases hsn : stageByName reg p n with
      | none => simp [applyEvent, transition, hp, hsn, h]
      | some s =>
        simp only [applyEvent, transition, hp, hsn]
        simp only [stageInvB, hp, decide_eq_true_eq]
        exact stageByName_mem hsn
  | readyForPipelineToggledOn =>
    cases hi : initialPipelineAndStage reg with
    | none => simp [applyEvent, transition, hi, h]
    | some ps =>
      obtain ⟨hex, hp, hfs⟩ := initialPipelineAndStage_eq hi
      simp only [applyEvent, transition, hi]
      simp only [stageInvB, hp, decide_eq_true_eq]
      exact firstStage_mem hfs
  | readyForPipelineToggledOff => simp [applyEvent, transition, stageInvB]

/-- The level of an Interview: Internal-HR, Internal-Technical, or
Employer (labelled "Company" in the Interview module README). -/
inductive InterviewLevel where
  | internalHR
  | internalTechnical
  | employer
deriving DecidableEq, Repr

/-- Whether an interview level is an internal one. -/
def InterviewLevel.isInternal : InterviewLevel → Bool
  | .internalHR => true
  | .internalTechnical => true
  | .employer => false

/-- An Interview result: Pass, Fail or Hold. -/
inductive InterviewResult where
  | pass
  | fail
  | hold
deriving DecidableEq, Repr

/-- A result is settled when it is Pass or Fail; Hold is non-settled. -/
def InterviewResult.isSettled : InterviewResult → Bool
  | .pass => true
  | .fail => true
  | .hold => false

/-- Modelled from the spec: the Interview Outcome Synchronizer of
`recruitment_system/interview/interview.py` (not under src/; declared in
the interview README's "Job Applicant Sync" section).  A settled result is
mapped to Stage Transition Engine events: Internal Pass moves the
candidate to "Internally Selected", Internal Fail to "Internal Rejected",
Employer (Company) Pass moves to "Company Selected" and then assigns the
"Offer Letter" pipeline in the same operation, Employer Fail moves to
"Company Rejected". -/
def applySettledResult (reg : Registry) (ja : JobApplicant)
    (lvl : InterviewLevel) (result : InterviewResult) : JobApplicant :=
  match lvl, result with
  | .internalHR, .pass | .internalTechnical, .pass =>
    applyEvent reg ja (.moveToStage "Internally Selected")
  | .internalHR, .fail | .internalTechnical, .fail =>
    applyEvent reg ja (.moveToStage "Internal Rejected")
  | .employer, .pass =>
    applyEvent reg (applyEvent reg ja (.moveToStage "Company Selected"))
      (.assignPipeline "Offer Letter")
  | .employer, .fail =>
    applyEvent reg ja (.moveToStage "Company Rejected")
  | _, .hold => ja

/-- Modelled from the spec: the synchronizer fires only when the persisted
result is settled and differs from the previous value ("triggers the
Outcome Synchronizer exactly once per settled value change"); otherwise
the candidate record is untouched. -/
def syncInterviewResult (reg : Registry) (ja : JobApplicant)
    (lvl : InterviewLevel) (oldResult : Option InterviewResult)
    (newResult : InterviewResult) : JobApplicant :=
  if newResult.isSettled = true then
    if oldResult = some newResult then ja
    else applySettledResult reg ja lvl newResult
  else ja

/-- Refusal reasons for single and bulk Interview scheduling. -/
inductive ScheduleError where
  | stageBlocksInterview
  | internalInterviewRequired
  | duplicateRound
  | roundNotFound
  | candidateNotFound
deriving DecidableEq, Repr

/-- Terminal stage names: no further Interview may be scheduled from them
("Rejected/Deployed" in the interview README). -/
def terminalStageNames : List String :=
  ["Deployed", "Internal Rejected", "Company Rejected"]

/-- Whether a candidate currently sits in a terminal stage. -/
def stageIsTerminal (ja : JobApplicant) : Bool :=
  match ja.current_stage with
  | some s => decide (s.name ∈ terminalStageNames)
  | none => false

/-- An Interview record: linked candidate, round, level, result (unset
until a reviewer records it) and a cancelled marker. -/
structure Interview where
  job_applicant : String
  interview_round : String
  interview_level : InterviewLevel
  result : Option InterviewResult
  cancelled : Bool
deriving DecidableEq, Repr

/-- Whether the candidate has at least one settled Internal-level
Interview with result Pass. -/
def hasInternalPass (interviews : List Interview) : Bool :=
  interviews.any (fun i =>
    i.interview_level.isInternal && decide (i.result = some InterviewResult.pass))

/-- Whether the candidate already has a non-cancelled Interview with the
given round. -/
def hasDuplicateRound (interviews : List Interview) (round : String) : Bool :=
  interviews.any (fun i =>
    decide (i.interview_round = round) && !i.cancelled)

/-- Modelled from the spec: the scheduling-time validation of
`recruitment_system/interview/interview.py` (not under src/; declared in
the interview README's "Validation" section).  A terminal stage blocks any
Interview; an Employer (Company) Interview additionally requires a settled
Internal Pass; a non-cancelled Interview with the same round is a
duplicate. -/
def validateNewInterview (ja : JobApplicant) (existing : List Interview)
    (lvl : InterviewLevel) (round : String) : Option ScheduleError :=
  if stageIsTerminal ja = true then some .stageBlocksInterview
  else if lvl = .employer ∧ hasInternalPass existing = false then
    some .internalInterviewRequired
  else if hasDuplicateRound existing round = true then some .duplicateRound
  else none

/-- A freshly created Interview for a candidate under a shared round. -/
def mkInterview (jaName round : String) (lvl : InterviewLevel) : Interview :=
  { job_applicant := jaName, interview_round := round,
    interview_level := lvl, result := none, cancelled := false }

/-- The state seen by single-interview creation: the candidate's tracking
record and their existing Interviews. -/
structure SchedulerState where
  ja : JobApplicant
  interviews : List Interview
deriving DecidableEq, Repr

/-- Modelled from the spec: single Interview creation validates the
preconditions and either refuses with a reason, leaving everything as it
was, or appends the new Interview. -/
def scheduleInterview (st : SchedulerState) (jaName round : String)
    (lvl : InterviewLevel) : Except ScheduleError SchedulerState :=
  match validateNewInterview st.ja st.interviews lvl round with
  | some e => .error e
  | none =>
    .ok { st with interviews := st.interviews ++ [mkInterview jaName round lvl] }

/-- Single Interview creation as a total state update: a refusal leaves
the state unchanged. -/
def scheduleInterviewRun (st : SchedulerState) (jaName round : String)
    (lvl : InterviewLevel) : SchedulerState :=
  match scheduleInterview st jaName round lvl with
  | .ok st2 => st2
  | .error _ => st

/-- The datastore view seen by the Bulk Interview Scheduler: candidates by
id, all existing Interviews, and the known Interview Rounds with the
interview level each round defines. -/
structure BulkEnv where
  candidates : List (String × JobApplicant)
  interviews : List Interview
  rounds : List (String × InterviewLevel)
deriving DecidableEq, Repr

/-- Look up a candidate's tracking record by id. -/
def lookupCandidate (env : BulkEnv) (id : String) : Option JobApplicant :=
  (env.candidates.find? (fun c => decide (c.1 = id))).map Prod.snd

/-- All existing Interviews of one candidate. -/
def interviewsOf (env : BulkEnv) (id : String) : List Interview :=
  env.interviews.filter (fun i => decide (i.job_applicant = id))

/-- Resolve an Interview Round to the interview level it defines; nothing
when the round reference is invalid. -/
def roundLevel (env : BulkEnv) (round : String) : Option InterviewLevel :=
  (env.rounds.find? (fun r => decide (r.1 = round))).map Prod.snd

/-- The aggregate report of a bulk run: created candidate ids and failed
candidate ids with their refusal reasons. -/
structure BulkReport where
  created : List String
  failed : List (String × ScheduleError)
deriving DecidableEq, Repr

/-- The per-candidate eligibility outcome used by the bulk scheduler:
nothing when the candidate is eligible, otherwise the refusal reason. -/
def candidateFailure (env : BulkEnv) (lvl : InterviewLevel)
    (round id : String) : Option ScheduleError :=
  match lookupCandidate env id with
  | none => some .candidateNotFound
  | some ja => validateNewInterview ja (interviewsOf env id) lvl round

/-- One step of the bulk fold: record the candidate in `failed` with its
reason, or in `created` together with the new Interview. -/
def bulkStep (env : BulkEnv) (lvl : InterviewLevel) (round : String)
    (acc : BulkReport × List Interview) (id : String) :
    BulkReport × List Interview :=
  match candidateFailure env lvl round id with
  | some e => ({ acc.1 with failed := acc.1.failed ++ [(id, e)] }, acc.2)
  | none => ({ acc.1 with created := acc.1.created ++ [id] },
             acc.2 ++ [mkInterview id round lvl])

/-- Modelled from the spec: `create_bulk_interviews` of
`recruitment_system/interview/bulk.py` (not under src/; declared in the
interview README and called from the Job Applicant list view).  An invalid
round reference aborts the whole call before any creation; otherwise every
candidate is processed independently and per-candidate refusals are only
recorded in the report. -/
def createBulkInterviews (env : BulkEnv) (round : String)
    (ids : List String) : Except ScheduleError (BulkReport × List Interview) :=
  match roundLevel env round with
  | none => .error .roundNotFound
  | some lvl => .ok (ids.foldl (bulkStep env lvl round) (⟨[], []⟩, []))

/-- An entry of the `applicant_document` child table: a document type and
an uploaded-file reference.  The empty string models an unset value (falsy
in the client script). -/
structure ApplicantDocument where
  document_type : String
  file : String
deriving DecidableEq, Repr

/-- The Applicant form state read and written by
`check_documents_completeness`. -/
structure ApplicantForm where
  applicant_document : List ApplicantDocument
  is_missing_documents : Bool
  missing_documents_name : String
deriving DecidableEq, Repr

/-- The client's `.trim()` call, written over the character list so that
it evaluates on concrete inputs: leading and trailing whitespace is
dropped. -/
def strTrim (s : String) : String :=
  String.mk (((s.data.dropWhile Char.isWhitespace).reverse.dropWhile
    Char.isWhitespace).reverse)

/-- The `documents_without_files` list collected by
`check_documents_completeness` in `doctype/applicant/applicant.js`: the
types of the rows whose `document_type` is set but whose `file` is not. -/
def documentsWithoutFiles (docs : List ApplicantDocument) : List String :=
  (docs.filter (fun d =>
    decide (d.document_type ≠ "") && decide (d.file = ""))).map
      (fun d => d.document_type)

/-- `check_documents_completeness` of `doctype/applicant/applicant.js`:
when documents are missing it sets `is_missing_documents` (if not already
set) and fills `missing_documents_name` with the comma-joined missing-type
list only when that field is blank; when nothing is missing it changes
nothing — the flag is deliberately not auto-cleared. -/
def check_documents_completeness (frm : ApplicantForm) : ApplicantForm :=
  let missing := documentsWithoutFiles frm.applicant_document
  if missing.length > 0 then
    let frm1 :=
      if frm.is_missing_documents then frm
      else { frm with is_missing_documents := true }
    if strTrim frm.missing_documents_name = "" then
      { frm1 with missing_documents_name := String.intercalate ", " missing }
    else frm1
  else frm

/-- The `is_missing_documents` field-change handler of
`doctype/applicant/applicant.js`: checking the box re-runs the
completeness check; unchecking it clears `missing_documents_name`. -/
def on_is_missing_documents_changed (frm : ApplicantForm) : ApplicantForm :=
  if frm.is_missing_documents then check_documents_completeness frm
  else { frm with missing_documents_name := "" }

theorem check_documents_flag_eq (frm : ApplicantForm) :
    (check_documents_completeness frm).is_missing_documents
      = (frm.is_missing_documents
          || !(documentsWithoutFiles frm.applicant_document).isEmpty) := by
  by_cases hm : documentsWithoutFiles frm.applicant_document = []
  · simp [check_documents_completeness, hm]
  · have hlen : 0 < (documentsWithoutFiles frm.applicant_document).length :=
      List.length_pos.mpr hm
    by_cases hf : frm.is_missing_documents <;>
      by_cases htr : strTrim frm.missing_documents_name = "" <;>
        simp [check_documents_completeness, hlen, hf, htr,
          List.isEmpty_eq_true, hm]

theorem check_documents_name_eq (frm : ApplicantForm) :
    (check_documents_completeness frm).missing_documents_name
      = (if documentsWithoutFiles frm.applicant_document ≠ []
            ∧ strTrim frm.missing_documents_name = ""
         then String.intercalate ", "
                (documentsWithoutFiles frm.applicant_document)
         else frm.missing_documents_name) := by
  by_cases hm : documentsWithoutFiles frm.applicant_document = []
  · simp [check_documents_completeness, hm]
  · have hlen : 0 < (documentsWithoutFiles frm.applicant_document).length :=
      List.length_pos.mpr hm
    by_cases hf : frm.is_missing_documents <;>
      by_cases htr : strTrim frm.missing_documents_name = "" <;>
        simp [check_documents_completeness, hlen, hf, htr, hm]

theorem check_documents_docs_eq (frm : ApplicantForm) :
    (check_documents_completeness frm).applicant_document
      = frm.applicant_document := by
  by_cases hm : documentsWithoutFiles frm.applicant_document = []
  · simp [check_documents_completeness, hm]
  · have hlen : 0 < (documentsWithoutFiles frm.applicant_document).length :=
      List.length_pos.mpr hm
    by_cases hf : frm.is_missing_documents <;>
      by_cases htr : strTrim frm.missing_documents_name = "" <;>
        simp [check_documents_completeness, hlen, hf, htr]

/-- The concrete pipeline/stage reference data used to exercise the
theorems on explicit inputs (pipelines and stage names as set up by the
Recruitment System module). -/
def defaultRegistry : Registry :=
  { pipelines := ["Interviews", "Offer Letter", "Visa Process"],
    stages :=
      [{ name := "Screening", pipeline := "Interviews", ordinal := 1 },
       { name := "Internally Selected", pipeline := "Interviews", ordinal := 2 },
       { name := "Internal Rejected", pipeline := "Interviews", ordinal := 3 },
       { name := "Company Selected", pipeline := "Interviews", ordinal := 4 },
       { name := "Company Rejected", pipeline := "Interviews", ordinal := 5 },
       { name := "Offer Letter Issued", pipeline := "Offer Letter", ordinal := 1 },
       { name := "Offer Letter Accepted", pipeline := "Offer Letter", ordinal := 2 },
       { name := "Visa Applied", pipeline := "Visa Process", ordinal := 1 },
       { name := "Deployed", pipeline := "Visa Process", ordinal := 2 }] }

/-- C1: after every step of any sequence of transition events, a Job
Applicant's `current_stage` is either null or a Stage belonging to its
`pipeline`, and `current_stage` is never set while `pipeline` is null. -/
theorem stage_invariant_preserved (reg : Registry) (ja : JobApplicant)
    (es : List TransitionEvent) (h : stageInvB reg ja = true) :
    stageInvB reg (runEvents reg ja es) = true := by
  induction es generalizing ja with
  | nil => exact h
  | cons e rest ih =>
    show stageInvB reg (runEvents reg (applyEvent reg ja e) rest) = true
    exact ih _ (stageInv_applyEvent reg ja e h)

/-- Witness for C1: a fresh candidate satisfies the invariant, and so does
the state reached by a concrete mixed event sequence. -/
theorem stage_invariant_preserved_witness :
    stageInvB defaultRegistry { pipeline := none, current_stage := none } = true ∧
    stageInvB defaultRegistry
      (runEvents defaultRegistry { pipeline := none, current_stage := none }
        [.readyForPipelineToggledOn, .moveToStage "Company Selected",
         .assignPipeline "Offer Letter", .moveToStage "No Such Stage",
         .clearPipeline, .readyForPipelineToggledOff,
         .readyForPipelineToggledOn]) = true :=
  ⟨by decide, stage_invariant_preserved defaultRegistry _ _ (by decide)⟩

/-- C6: a successful pipeline assignment always sets `pipeline` to the
destination and `current_stage` to the destination pipeline's entry stage
(its lowest-ordinal stage); the result does not depend on the source
state, so moving across pipelines never resumes a mid-sequence position. -/
theorem assignPipeline_entry_stage (reg : Registry) (ja ja2 : JobApplicant)
    (p : String) (h : transition reg ja (.assignPipeline p) = .ok ja2) :
    ja2.pipeline = some p ∧ ja2.current_stage = firstStage reg p ∧
    (∀ s, ja2.current_stage = some s →
      s ∈ stagesOf reg p ∧ ∀ t ∈ stagesOf reg p, s.ordinal ≤ t.ordinal) ∧
    (∀ jb jb2, transition reg jb (.assignPipeline p) = .ok jb2 → jb2 = ja2) := by
  by_cases hex : pipelineExists reg p = true
  · simp only [transition, hex, if_pos, Except.ok.injEq] at h
    subst h
    refine ⟨rfl, rfl, ?_, ?_⟩
    · intro s hs
      exact ⟨firstStage_mem hs, minByOrdinal_le _ _ hs⟩
    · intro jb jb2 hb
      simp only [transition, hex, if_pos, Except.ok.injEq] at hb
      exact hb.symm
  · simp [transition, hex] at h

/-- Witness for C6: assigning the "Offer Letter" pipeline from a concrete
state ends at that pipeline's lowest-ordinal stage. -/
theorem assignPipeline_entry_stage_witness :
    (JobApplicant.mk (some "Offer Letter")
      (some { name := "Offer Letter Issued", pipeline := "Offer Letter", ordinal := 1 })).pipeline
        = some "Offer Letter" ∧
    (JobApplicant.mk (some "Offer Letter")
      (some { name := "Offer Letter Issued", pipeline := "Offer Letter", ordinal := 1 })).current_stage
        = firstStage defaultRegistry "Offer Letter" := by
  have h := assignPipeline_entry_stage defaultRegistry
    ⟨some "Interviews", some { name := "Company Selected", pipeline := "Interviews", ordinal := 4 }⟩
    ⟨some "Offer Letter", some { name := "Offer Letter Issued", pipeline := "Offer Letter", ordinal := 1 }⟩
    "Offer Letter" (by rfl)
  exact ⟨h.1, h.2.1⟩

/-- C7: toggling `ready_for_pipeline` on behaves exactly like
`AssignPipeline "Interviews"` (whenever the "Interviews" pipeline and its
first stage exist), and toggling it off behaves exactly like
`ClearPipeline`. -/
theorem ready_for_pipeline_equiv (reg : Registry) (ja : JobApplicant) :
    ((initialPipelineAndStage reg).isSome = true →
      transition reg ja .readyForPipelineToggledOn
        = transition reg ja (.assignPipeline "Interviews")) ∧
    transition reg ja .readyForPipelineToggledOff
      = transition reg ja .clearPipeline := by
  constructor
  · intro h
    rw [Option.isSome_iff_exists] at h
    obtain ⟨ps, hps⟩ := h
    obtain ⟨hex, hp, hfs⟩ := initialPipelineAndStage_eq hps
    simp only [transition, hps, hex, if_pos, hfs]
    rw [hp]
  · simp [transition]

/-- Witness for C7: on the concrete registry, toggling on equals assigning
the "Interviews" pipeline. -/
theorem ready_for_pipeline_equiv_witness :
    (initialPipelineAndStage defaultRegistry).isSome = true ∧
    transition defaultRegistry ⟨none, none⟩ .readyForPipelineToggledOn
      = transition defaultRegistry ⟨none, none⟩ (.assignPipeline "Interviews") :=
  ⟨by decide, (ready_for_pipeline_equiv defaultRegistry ⟨none, none⟩).1 (by decide)⟩

/-- C2: when an Interview result settles from unset/Hold (or any different
previous value), the candidate stage follows the fixed mapping: Internal
Pass → "Internally Selected", Internal Fail → "Internal Rejected",
Employer Pass → "Company Selected" and then, in the same operation, the
"Offer Letter" pipeline's entry stage; Employer Fail → "Company
Rejected"; and reapplying the same settled result changes nothing. -/
theorem interview_result_sync (reg : Registry) (ja : JobApplicant)
    (sIS sIR sCS sCR : Stage)
    (hp : ja.pipeline = some "Interviews")
    (hIS : stageByName reg "Interviews" "Internally Selected" = some sIS)
    (hIR : stageByName reg "Interviews" "Internal Rejected" = some sIR)
    (hCS : stageByName reg "Interviews" "Company Selected" = some sCS)
    (hCR : stageByName reg "Interviews" "Company Rejected" = some sCR)
    (hOL : pipelineExists reg "Offer Letter" = true) :
    (∀ lvl, lvl.isInternal = true → ∀ old, old ≠ some .pass →
      syncInterviewResult reg ja lvl old .pass
        = { ja with current_stage := some sIS }) ∧
    (∀ lvl, lvl.isInternal = true → ∀ old, old ≠ some .fail →
      syncInterviewResult reg ja lvl old .fail
        = { ja with current_stage := some sIR }) ∧
    (∀ old, old ≠ some .pass →
      applyEvent reg ja (.moveToStage "Company Selected")
          = { ja with current_stage := some sCS } ∧
      syncInterviewResult reg ja .employer old .pass
          = { pipeline := some "Offer Letter",
              current_stage := firstStage reg "Offer Letter" }) ∧
    (∀ old, old ≠ some .fail →
      syncInterviewResult reg ja .employer old .fail
        = { ja with current_stage := some sCR }) ∧
    (∀ lvl r, r.isSettled = true →
      syncInterviewResult reg ja lvl (some r) r = ja) := by
  have hmove : applyEvent reg ja (.moveToStage "Company Selected")
      = { ja with current_stage := some sCS } := by
    simp [applyEvent, transition, hp, hCS]
  refine ⟨?_, ?_, ?_, ?_, ?_⟩
  · intro lvl hl old hold
    cases lvl with
    | employer => simp [InterviewLevel.isInternal] at hl
    | internalHR =>
      simp [syncInterviewResult, InterviewResult.isSettled, hold,
        applySettledResult, applyEvent, transition, hp, hIS]
    | internalTechnical =>
      simp [syncInterviewResult, InterviewResult.isSettled, hold,
        applySettledResult, applyEvent, transition, hp, hIS]
  · intro lvl hl old hold
    cases lvl with
    | employer => simp [InterviewLevel.isInternal] at hl
    | internalHR =>
      simp [syncInterviewResult, InterviewResult.isSettled, hold,
        applySettledResult, applyEvent, transition, hp, hIR]
    | internalTechnical =>
      simp [syncInterviewResult, InterviewResult.isSettled, hold,
        applySettledResult, applyEvent, transition, hp, hIR]
  · intro old hold
    refine ⟨hmove, ?_⟩
    simp only [syncInterviewResult, InterviewResult.isSettled, if_pos,
      hold, if_neg, not_false_iff, applySettledResult, hmove]
    simp [applyEvent, transition, hOL]
  · intro old hold
    simp [syncInterviewResult, InterviewResult.isSettled, hold,
      applySettledResult, applyEvent, transition, hp, hCR]
  · intro lvl r hr
    simp [syncInterviewResult, hr]

/-- Witness for C2: on the concrete registry, from the "Screening" stage
of the "Interviews" pipeline, Internal-HR Pass lands on "Internally
Selected", Employer Pass lands on the "Offer Letter" entry stage, and
reapplying a settled Pass is a no-op. -/
theorem interview_result_sync_witness :
    syncInterviewResult defaultRegistry
        ⟨some "Interviews", some { name := "Screening", pipeline := "Interviews", ordinal := 1 }⟩
        .internalHR none .pass
      = ⟨some "Interviews", some { name := "Internally Selected", pipeline := "Interviews", ordinal := 2 }⟩ ∧
    syncInterviewResult defaultRegistry
        ⟨some "Interviews", some { name := "Screening", pipeline := "Interviews", ordinal := 1 }⟩
        .employer none .pass
      = ⟨some "Offer Letter", firstStage defaultRegistry "Offer Letter"⟩ ∧
    syncInterviewResult defaultRegistry
        ⟨some "Interviews", some { name := "Screening", pipeline := "Interviews", ordinal := 1 }⟩
        .internalHR (some .pass) .pass
      = ⟨some "Interviews", some { name := "Screening", pipeline := "Interviews", ordinal := 1 }⟩ := by
  have h := interview_result_sync defaultRegistry
    ⟨some "Interviews", some { name := "Screening", pipeline := "Interviews", ordinal := 1 }⟩
    { name := "Internally Selected", pipeline := "Interviews", ordinal := 2 }
    { name := "Internal Rejected", pipeline := "Interviews", ordinal := 3 }
    { name := "Company Selected", pipeline := "Interviews", ordinal := 4 }
    { name := "Company Rejected", pipeline := "Interviews", ordinal := 5 }
    (by rfl) (by rfl) (by rfl) (by rfl) (by rfl) (by decide)
  exact ⟨h.1 .internalHR (by rfl) none (by decide),
    (h.2.2.1 none (by decide)).2,
    h.2.2.2.2 .internalHR .pass (by rfl)⟩

/-- C9: while an Interview's result is Hold (or not newly settled), the
synchronizer never changes the linked candidate; any observable change
implies the result settled to Pass or Fail and differs from the previous
value. -/
theorem hold_never_changes_stage (reg : Registry) (ja : JobApplicant)
    (lvl : InterviewLevel) (old : Option InterviewResult) :
    syncInterviewResult reg ja lvl old .hold = ja ∧
    (∀ new, syncInterviewResult reg ja lvl old new ≠ ja →
      (new = .pass ∨ new = .fail) ∧ old ≠ some new) := by
  constructor
  · simp [syncInterviewResult, InterviewResult.isSettled]
  · intro new hne
    unfold syncInterviewResult at hne
    by_cases hs : new.isSettled = true
    · by_cases ho : old = some new
      · rw [if_pos hs, if_pos ho] at hne
        exact absurd rfl hne
      · refine ⟨?_, ho⟩
        cases new with
        | pass => exact Or.inl rfl
        | fail => exact Or.inr rfl
        | hold => simp [InterviewResult.isSettled] at hs
    · rw [if_neg hs] at hne
      exact absurd rfl hne

/-- A concrete stage and candidate used by witnesses: the "Screening"
entry stage of the "Interviews" pipeline. -/
def screeningStage : Stage :=
  { name := "Screening", pipeline := "Interviews", ordinal := 1 }

/-- A concrete candidate sitting at the Screening stage. -/
def jaAtScreening : JobApplicant :=
  { pipeline := some "Interviews", current_stage := some screeningStage }

/-- The accumulated value of the bulk fold equals the report computed
per candidate: each id contributes to `created` when its own eligibility
check passes and to `failed` (with its reason) when it does not. -/
theorem bulkFoldl_eq (env : BulkEnv) (lvl : InterviewLevel) (round : String) :
    ∀ (ids : List String) (acc : BulkReport × List Interview),
      ids.foldl (bulkStep env lvl round) acc
        = ({ created := acc.1.created
               ++ ids.filter (fun id => (candidateFailure env lvl round id).isNone),
             failed := acc.1.failed
               ++ ids.filterMap (fun id =>
                    (candidateFailure env lvl round id).map (fun e => (id, e))) },
           acc.2 ++ (ids.filter (fun id =>
             (candidateFailure env lvl round id).isNone)).map
               (fun id => mkInterview id round lvl)) := by
  intro ids
  induction ids with
  | nil =>
    intro acc
    obtain ⟨⟨c, f⟩, ivs⟩ := acc
    simp
  | cons id rest ih =>
    intro acc
    obtain ⟨⟨c, f⟩, ivs⟩ := acc
    rw [List.foldl_cons, ih]
    cases hc : candidateFailure env lvl round id with
    | some e => simp [bulkStep, hc, List.filter_cons, List.filterMap_cons]
    | none => simp [bulkStep, hc, List.filter_cons, List.filterMap_cons]

/-- C3: with a valid round, the bulk scheduler never raises: it returns a
report in which every candidate id was judged independently by its own
eligibility check — ineligible ids are recorded in `failed` with their
reason and do not abort the batch, while all eligible ids get an Interview
created under the shared round. -/
theorem create_bulk_independent (env : BulkEnv) (round : String)
    (lvl : InterviewLevel) (ids : List String)
    (h : roundLevel env round = some lvl) :
    createBulkInterviews env round ids
      = .ok ({ created := ids.filter (fun id =>
                   (candidateFailure env lvl round id).isNone),
               failed := ids.filterMap (fun id =>
                   (candidateFailure env lvl round id).map (fun e => (id, e))) },
             (ids.filter (fun id =>
                 (candidateFailure env lvl round id).isNone)).map
               (fun id => mkInterview id round lvl)) := by
  unfold createBulkInterviews
  rw [h]
  show Except.ok (List.foldl (bulkStep env lvl round) (⟨[], []⟩, []) ids) = _
  rw [bulkFoldl_eq]
  simp

/-- The concrete datastore for the C3 scenario: five candidates at
Screening, the third of which already has a non-cancelled Interview with
the "Internal HR" round. -/
def bulkEnv5 : BulkEnv :=
  { candidates := [("JA-001", jaAtScreening), ("JA-002", jaAtScreening),
                   ("JA-003", jaAtScreening), ("JA-004", jaAtScreening),
                   ("JA-005", jaAtScreening)],
    interviews := [mkInterview "JA-003" "Internal HR" .internalHR],
    rounds := [("Internal HR", .internalHR)] }

/-- Witness for C3: bulk scheduling 5 candidates where candidate #3 has a
duplicate round yields created = the other 4 and failed = exactly #3 with
a duplicate-round reason, without raising. -/
theorem create_bulk_independent_witness :
    roundLevel bulkEnv5 "Internal HR" = some .internalHR ∧
    createBulkInterviews bulkEnv5 "Internal HR"
        ["JA-001", "JA-002", "JA-003", "JA-004", "JA-005"]
      = .ok ({ created := ["JA-001", "JA-002", "JA-004", "JA-005"],
               failed := [("JA-003", .duplicateRound)] },
             [mkInterview "JA-001" "Internal HR" .internalHR,
              mkInterview "JA-002" "Internal HR" .internalHR,
              mkInterview "JA-004" "Internal HR" .internalHR,
              mkInterview "JA-005" "Internal HR" .internalHR]) :=
  ⟨by rfl,
   (create_bulk_independent bulkEnv5 "Internal HR" .internalHR
      ["JA-001", "JA-002", "JA-003", "JA-004", "JA-005"] (by rfl)).trans (by rfl)⟩

/-- C4: for an otherwise eligible candidate (non-terminal stage, no
duplicate round), creating an Employer-level Interview is refused with
`internalInterviewRequired` when no settled Internal Pass exists, and
succeeds once one exists. -/
theorem employer_requires_internal_pass (st : SchedulerState)
    (jaName round : String)
    (hterm : stageIsTerminal st.ja = false)
    (hdup : hasDuplicateRound st.interviews round = false) :
    (hasInternalPass st.interviews = false →
      scheduleInterview st jaName round .employer
        = .error .internalInterviewRequired) ∧
    (hasInternalPass st.interviews = true →
      scheduleInterview st jaName round .employer
        = .ok { st with interviews :=
            st.interviews ++ [mkInterview jaName round .employer] }) := by
  constructor
  · intro hpass
    simp [scheduleInterview, validateNewInterview, hterm, hpass]
  · intro hpass
    simp [scheduleInterview, validateNewInterview, hterm, hpass, hdup]

/-- Witness for C4: an Employer Interview for a Screening-stage candidate
with no Interviews is refused with `internalInterviewRequired`; after an
Internal-HR Pass exists, the same Interview is created. -/
theorem employer_requires_internal_pass_witness :
    scheduleInterview ⟨jaAtScreening, []⟩ "JA-001" "Company Interview" .employer
      = .error .internalInterviewRequired ∧
    scheduleInterview
        ⟨jaAtScreening,
         [{ job_applicant := "JA-001", interview_round := "Internal HR",
            interview_level := .internalHR, result := some .pass,
            cancelled := false }]⟩
        "JA-001" "Company Interview" .employer
      = .ok ⟨jaAtScreening,
             [{ job_applicant := "JA-001", interview_round := "Internal HR",
                interview_level := .internalHR, result := some .pass,
                cancelled := false },
              mkInterview "JA-001" "Company Interview" .employer]⟩ :=
  ⟨(employer_requires_internal_pass ⟨jaAtScreening, []⟩ "JA-001"
      "Company Interview" (by rfl) (by rfl)).1 (by rfl),
   (employer_requires_internal_pass
      ⟨jaAtScreening,
       [{ job_applicant := "JA-001", interview_round := "Internal HR",
          interview_level := .internalHR, result := some .pass,
          cancelled := false }]⟩ "JA-001"
      "Company Interview" (by rfl) (by rfl)).2 (by rfl)⟩

/-- C5: for a candidate whose current stage is terminal, scheduling any
Interview — any level, any round, singly or in a bulk run — is refused
with `stageBlocksInterview`, and the scheduler state is left unchanged. -/
theorem terminal_stage_blocks (st : SchedulerState) (jaName round : String)
    (lvl : InterviewLevel) (env : BulkEnv) (id : String)
    (hterm : stageIsTerminal st.ja = true) :
    scheduleInterview st jaName round lvl = .error .stageBlocksInterview ∧
    scheduleInterviewRun st jaName round lvl = st ∧
    (lookupCandidate env id = some st.ja →
      candidateFailure env lvl round id = some .stageBlocksInterview) := by
  have h1 : scheduleInterview st jaName round lvl
      = .error .stageBlocksInterview := by
    simp [scheduleInterview, validateNewInterview, hterm]
  refine ⟨h1, ?_, ?_⟩
  · simp [scheduleInterviewRun, h1]
  · intro hl
    simp [candidateFailure, hl, validateNewInterview, hterm]

/-- Witness for C5: a candidate at the "Internal Rejected" stage is
refused with `stageBlocksInterview` and their state is unchanged. -/
theorem terminal_stage_blocks_witness :
    scheduleInterview
        ⟨⟨some "Interviews",
          some { name := "Internal Rejected", pipeline := "Interviews", ordinal := 3 }⟩, []⟩
        "JA-009" "Internal HR" .internalHR
      = .error .stageBlocksInterview ∧
    scheduleInterviewRun
        ⟨⟨some "Interviews",
          some { name := "Internal Rejected", pipeline := "Interviews", ordinal := 3 }⟩, []⟩
        "JA-009" "Internal HR" .internalHR
      = ⟨⟨some "Interviews",
          some { name := "Internal Rejected", pipeline := "Interviews", ordinal := 3 }⟩, []⟩ := by
  have h := terminal_stage_blocks
    ⟨⟨some "Interviews",
      some { name := "Internal Rejected", pipeline := "Interviews", ordinal := 3 }⟩, []⟩
    "JA-009" "Internal HR" .internalHR
    { candidates := [], interviews := [], rounds := [] } "JA-009" (by rfl)
  exact ⟨h.1, h.2.1⟩

/-- Witness for C9: Hold leaves a concrete candidate untouched, and a
concrete observable change was a settled Pass from an unset result. -/
theorem hold_never_changes_stage_witness :
    syncInterviewResult defaultRegistry
        ⟨some "Interviews", some { name := "Screening", pipeline := "Interviews", ordinal := 1 }⟩
        .internalTechnical none .hold
      = ⟨some "Interviews", some { name := "Screening", pipeline := "Interviews", ordinal := 1 }⟩ ∧
    ((InterviewResult.pass = .pass ∨ InterviewResult.pass = .fail) ∧
      (none : Option InterviewResult) ≠ some .pass) :=
  ⟨(hold_never_changes_stage defaultRegistry
      ⟨some "Interviews", some { name := "Screening", pipeline := "Interviews", ordinal := 1 }⟩
      .internalTechnical none).1,
   (hold_never_changes_stage defaultRegistry
      ⟨some "Interviews", some { name := "Screening", pipeline := "Interviews", ordinal := 1 }⟩
      .internalTechnical none).2 .pass (by decide)⟩

/-- C8: a document is reported missing iff its type is set and no file is
attached; when any are missing, the flag is set and
`missing_documents_name` receives the comma-joined list only if it was
blank (a non-blank value is preserved); when none are missing, the form —
flag included — is left exactly as it was (no auto-clear). -/
theorem documents_completeness_policy (frm : ApplicantForm) :
    (∀ t, t ∈ documentsWithoutFiles frm.applicant_document ↔
      ∃ d ∈ frm.applicant_document,
        d.document_type = t ∧ d.document_type ≠ "" ∧ d.file = "") ∧
    (check_documents_completeness frm).is_missing_documents
      = (frm.is_missing_documents
          || !(documentsWithoutFiles frm.applicant_document).isEmpty) ∧
    (check_documents_completeness frm).missing_documents_name
      = (if documentsWithoutFiles frm.applicant_document ≠ []
            ∧ strTrim frm.missing_documents_name = ""
         then String.intercalate ", "
                (documentsWithoutFiles frm.applicant_document)
         else frm.missing_documents_name) ∧
    (check_documents_completeness frm).applicant_document
      = frm.applicant_document ∧
    (documentsWithoutFiles frm.applicant_document = []
      → check_documents_completeness frm = frm) := by
  refine ⟨?_, check_documents_flag_eq frm, check_documents_name_eq frm,
    check_documents_docs_eq frm, ?_⟩
  · intro t
    simp only [documentsWithoutFiles, List.mem_map, List.mem_filter,
      Bool.and_eq_true, decide_eq_true_eq]
    constructor
    · rintro ⟨d, ⟨hd, ht, hf⟩, rfl⟩
      exact ⟨d, hd, rfl, ht, hf⟩
    · rintro ⟨d, hd, rfl, ht, hf⟩
      exact ⟨d, ⟨hd, ht, hf⟩, rfl⟩
  · intro hm
    simp [check_documents_completeness, hm]

/-- Witness for C8: with documents `[{Passport, no file}, {CNIC, file}]`
the missing list is exactly `["Passport"]`, and with
`missing_documents_name` already `"CV"` the checker leaves it as `"CV"`. -/
theorem documents_completeness_policy_witness :
    documentsWithoutFiles
        [{ document_type := "Passport", file := "" },
         { document_type := "CNIC", file := "x" }] = ["Passport"] ∧
    (check_documents_completeness
        { applicant_document :=
            [{ document_type := "Passport", file := "" },
             { document_type := "CNIC", file := "x" }],
          is_missing_documents := false,
          missing_documents_name := "CV" }).is_missing_documents = true ∧
    (check_documents_completeness
        { applicant_document :=
            [{ document_type := "Passport", file := "" },
             { document_type := "CNIC", file := "x" }],
          is_missing_documents := false,
          missing_documents_name := "CV" }).missing_documents_name = "CV" := by
  have h := documents_completeness_policy
    { applicant_document :=
        [{ document_type := "Passport", file := "" },
         { document_type := "CNIC", file := "x" }],
      is_missing_documents := false,
      missing_documents_name := "CV" }
  refine ⟨by rfl, ?_, ?_⟩
  · rw [h.2.1]; rfl
  · rw [h.2.2.1]; decide

/-- C10 (implicit): unchecking `is_missing_documents` clears
`missing_documents_name` unconditionally, discarding any user-entered
text, whereas checking it re-runs the completeness check, which fills the
field only when it is blank. -/
theorem is_missing_documents_toggle (frm : ApplicantForm) :
    (on_is_missing_documents_changed
        { frm with is_missing_documents := false }).missing_documents_name
      = "" ∧
    on_is_missing_documents_changed { frm with is_missing_documents := true }
      = check_documents_completeness
          { frm with is_missing_documents := true } ∧
    (on_is_missing_documents_changed
        { frm with is_missing_documents := true }).missing_documents_name
      = (if documentsWithoutFiles frm.applicant_document ≠ []
            ∧ strTrim frm.missing_documents_name = ""
         then String.intercalate ", "
                (documentsWithoutFiles frm.applicant_document)
         else frm.missing_documents_name) := by
  refine ⟨by simp [on_is_missing_documents_changed],
    by simp [on_is_missing_documents_changed], ?_⟩
  have h := check_documents_name_eq { frm with is_missing_documents := true }
  simpa [on_is_missing_documents_changed] using h

end RecruitmentSystem
